import Mathlib

/-
Verification development for the GoFirewall library (package firewall,
file firewall/firewall.go).  The Go source is shallowly embedded below:
pure functions become Lean functions, the Go map becomes an association
list wrapped in Option (none models a nil map), and the observable
effects of the HTTP wrapper (log lines, the response, whether the inner
handler ran) are returned as data.
-/

set_option maxHeartbeats 1000000

namespace GoFirewall

/-! ### Model of the Go standard library string/net primitives used by the code

`splitChar` models `strings.Split` (on a single separator character),
`parseIPv4` / `parseIPv6` / `parseIP` model `net.ParseIP`, and
`parseCIDR` models `net.ParseCIDR`, all at the level of the `List Char`
contents of the strings involved. -/

/-- Model of Go strings.Split with a one-character separator.
Always returns at least one (possibly empty) segment. -/
def splitChar (sep : Char) : List Char → List (List Char)
  | [] => [[]]
  | c :: rest =>
    if c = sep then [] :: splitChar sep rest
    else
      match splitChar sep rest with
      | [] => [[c]]
      | g :: gs => (c :: g) :: gs

def isHexDigit (c : Char) : Bool :=
  c.isDigit || ('a' ≤ c && c ≤ 'f') || ('A' ≤ c && c ≤ 'F')

def hexVal (c : Char) : Nat :=
  if c.isDigit then c.toNat - 48
  else if 'a' ≤ c && c ≤ 'f' then c.toNat - 87
  else c.toNat - 55

/-- One dotted-decimal field of an IPv4 address (Go net.dtoi plus the
`n > 0xFF` check in net.parseIPv4): a nonempty run of decimal digits
whose value is at most 255. -/
def parseV4Field (cs : List Char) : Option Nat :=
  if cs = [] then none
  else if cs.all Char.isDigit then
    let v := cs.foldl (fun a c => a * 10 + (c.toNat - 48)) 0
    if v ≤ 255 then some v else none
  else none

/-- Go net.parseIPv4: exactly four dot-separated fields, each in 0..255.
Returns the 32-bit numeric value of the address. -/
def parseIPv4 (cs : List Char) : Option Nat :=
  match (splitChar '.' cs).mapM parseV4Field with
  | some [a, b, c, d] => some (((a * 256 + b) * 256 + c) * 256 + d)
  | _ => none

/-- Go net.xtoi: consume a maximal run of hex digits, returning the value,
the number of characters consumed and the rest.  Returns none when the
accumulated value reaches Go's `big` cutoff (0xFFFFFF), as xtoi then
reports failure. -/
def xtoiAux : List Char → Nat → Nat → Option (Nat × Nat × List Char)
  | [], n, i => some (n, i, [])
  | c :: rest, n, i =>
    if isHexDigit c then
      let n2 := n * 16 + hexVal c
      if 0xFFFFFF ≤ n2 then none
      else xtoiAux rest n2 (i + 1)
    else some (n, i, c :: rest)

def xtoi (cs : List Char) : Option (Nat × Nat × List Char) := xtoiAux cs 0 0

/-- Final fixup of Go net.parseIPv6: with all sixteen bytes written the
ellipsis must be absent; otherwise an ellipsis is required and the groups
after it are shifted to the end, zero-filling the middle. -/
def finishIPv6 (ell : Option Nat) (groups : List Nat) : Option (List Nat) :=
  if groups.length = 8 then
    match ell with
    | some _ => none
    | none => some groups
  else if groups.length < 8 then
    match ell with
    | none => none
    | some e => some (groups.take e ++ List.replicate (8 - groups.length) 0 ++ groups.drop e)
  else none

/-- Main loop of Go net.parseIPv6, one recursive call per 16-bit group.
`ell` is the group index of the `::` ellipsis if seen, `groups` the
16-bit group values emitted so far.  The fuel only bounds the at most
eight iterations and is never exhausted on inputs the loop accepts. -/
def parseIPv6Loop : Nat → List Char → Option Nat → List Nat → Option (List Nat)
  | 0, _, _, _ => none
  | fuel + 1, s, ell, groups =>
    if 8 ≤ groups.length then
      if s = [] then finishIPv6 ell groups else none
    else
      match xtoi s with
      | none => none
      | some (n, cnt, rest) =>
        if cnt = 0 then none
        else if 0xFFFF < n then none
        else
          match rest with
          | [] => finishIPv6 ell (groups ++ [n])
          | r1 :: rest2 =>
            if r1 = '.' then
              if ell = none ∧ groups.length ≠ 6 then none
              else if 8 < groups.length + 2 then none
              else
                match parseIPv4 s with
                | none => none
                | some v4 => finishIPv6 ell (groups ++ [v4 / 65536, v4 % 65536])
            else if r1 = ':' then
              match rest2 with
              | [] => none
              | r2 :: rest3 =>
                if r2 = ':' then
                  if ell = none then
                    if rest3 = [] then finishIPv6 (some (groups.length + 1)) (groups ++ [n])
                    else parseIPv6Loop fuel rest3 (some (groups.length + 1)) (groups ++ [n])
                  else none
                else parseIPv6Loop fuel rest2 ell (groups ++ [n])
            else none

/-- Go net.parseIPv6: returns the 128-bit numeric value of the address. -/
def parseIPv6 (cs : List Char) : Option Nat :=
  let core :=
    match cs with
    | c1 :: c2 :: rest =>
      if c1 = ':' ∧ c2 = ':' then
        if rest = [] then some (List.replicate 8 0)
        else parseIPv6Loop 9 rest (some 0) []
      else parseIPv6Loop 9 cs none []
    | _ => parseIPv6Loop 9 cs none []
  core.map (fun gs => gs.foldl (fun a g => a * 65536 + g) 0)

/-- A parsed IP address: the 32-bit value of a dotted-quad address or the
128-bit value of a colon-form address (Go net.IP, abstracting the byte
slice representation). -/
inductive IP where
  | v4 (val : Nat) : IP
  | v6 (val : Nat) : IP
deriving DecidableEq, Repr

/-- Go net.ParseIP: dispatch on the first '.' or ':' in the string;
a string containing neither is not an address.  none models Go's nil. -/
def parseIP (cs : List Char) : Option IP :=
  match cs.find? (fun c => c == '.' || c == ':') with
  | none => none
  | some c =>
    if c = '.' then (parseIPv4 cs).map IP.v4
    else (parseIPv6 cs).map IP.v6

/-- The "/nn" part of a CIDR (Go net.dtoi, all input consumed, bounded by
the address bit width). -/
def parseMaskLen (cs : List Char) (maxBits : Nat) : Option Nat :=
  if cs = [] then none
  else if cs.all Char.isDigit then
    let v := cs.foldl (fun a c => a * 10 + (c.toNat - 48)) 0
    if v ≤ maxBits then some v else none
  else none

/-- Go net.IPNet restricted to what ParseCIDR produces: a base address
(already masked, as ParseCIDR applies ip.Mask(m)) and a mask length. -/
structure IPNet where
  isV4 : Bool
  base : Nat
  ones : Nat
deriving DecidableEq, Repr

/-- Go (*net.IPNet).Contains, including the To4 normalization: a
v4-mapped IPv6 address (::ffff:a.b.c.d) is compared as its low 32 bits,
and a v4-mapped IPv6 network compares a 4-byte address against the low
32 bits of its mask and base. -/
def IPNet.contains (n : IPNet) (ip : IP) : Bool :=
  match ip with
  | .v4 v =>
    if n.isV4 then
      v / 2 ^ (32 - n.ones) = n.base / 2 ^ (32 - n.ones)
    else if n.base / 2 ^ 32 = 0xFFFF then
      v / 2 ^ (32 - (n.ones - 96)) * 2 ^ (32 - (n.ones - 96)) = n.base % 2 ^ 32
    else false
  | .v6 v =>
    if n.isV4 then
      v / 2 ^ 32 = 0xFFFF && (v % 2 ^ 32) / 2 ^ (32 - n.ones) = n.base / 2 ^ (32 - n.ones)
    else
      v / 2 ^ (128 - n.ones) = n.base / 2 ^ (128 - n.ones)

/-- Go net.ParseCIDR: split at the first '/', parse the address part as
IPv4 then IPv6, parse the mask length, and mask the base address. -/
def parseCIDR (s : String) : Option IPNet :=
  match splitChar '/' s.data with
  | [addr, mask] =>
    match parseIPv4 addr with
    | some v =>
      match parseMaskLen mask 32 with
      | some ones => some { isV4 := true, base := v / 2 ^ (32 - ones) * 2 ^ (32 - ones), ones := ones }
      | none => none
    | none =>
      match parseIPv6 addr with
      | some v =>
        match parseMaskLen mask 128 with
        | some ones => some { isV4 := false, base := v / 2 ^ (128 - ones) * 2 ^ (128 - ones), ones := ones }
        | none => none
      | none => none
  | _ => none

/-! ### The firewall itself (firewall/firewall.go) -/

/-- The contents of the Go map[string][]net.IPNet: an association list
with at most one entry per path (the list order is irrelevant to lookup
because addPathRule refuses duplicate paths). -/
abbrev RuleTable := List (String × List IPNet)

def lookupTable (t : RuleTable) (path : String) : Option (List IPNet) :=
  match t with
  | [] => none
  | (p, ns) :: rest => if p = path then some ns else lookupTable rest path

/-- Rules struct.  `pathToNetblocks = none` models a nil Go map (the
zero value, as left by the no-argument constructor New). -/
structure Rules where
  pathToNetblocks : Option RuleTable
  failOpen : Bool
deriving DecidableEq, Repr

structure Firewall where
  rules : Rules
  log : Bool
deriving DecidableEq, Repr

/-- Reading from a Go map: a nil map reads as empty. -/
def Rules.lookup (rs : Rules) (path : String) : Option (List IPNet) :=
  match rs.pathToNetblocks with
  | none => none
  | some t => lookupTable t path

/-- New: the no-argument constructor; the rule map field is left at its
zero value (nil). -/
def New : Firewall :=
  { rules := { pathToNetblocks := none, failOpen := false }, log := false }

/-- NewFirewall: constructor from a rule map and the two flags. -/
def NewFirewall (rules : Option RuleTable) (failOpen log : Bool) : Firewall :=
  { rules := { pathToNetblocks := rules, failOpen := failOpen }, log := log }

inductive FwError where
  /-- ErrPathHasRule -/
  | pathHasRule
  /-- the fmt.Errorf("could not parse CIDR: %s", err) error; the payload
  is the raw network string the underlying ParseCIDR error identifies -/
  | couldNotParseCIDR (input : String)
deriving DecidableEq, Repr

/-- Result of AddPathRule.  `ok` carries the updated firewall (the Go
method mutates in place); `nilMapPanic` models the runtime fault of
assigning into a nil map. -/
inductive AddResult where
  | ok (fw : Firewall)
  | err (e : FwError)
  | nilMapPanic
deriving DecidableEq, Repr

/-- The parse loop of AddPathRule: parse every raw network in order,
failing fast on the first string ParseCIDR rejects. -/
def parseCIDRList : List String → Except String (List IPNet)
  | [] => .ok []
  | s :: rest =>
    match parseCIDR s with
    | none => .error s
    | some n =>
      match parseCIDRList rest with
      | .error e => .error e
      | .ok ns => .ok (n :: ns)

/-- AddPathRule: reject an already-configured path, parse the CIDRs
(fail fast), then store the parsed list — which panics when the rule map
is nil. -/
def Firewall.addPathRule (fw : Firewall) (path : String) (networks : List String) : AddResult :=
  match fw.rules.lookup path with
  | some _ => .err .pathHasRule
  | none =>
    match parseCIDRList networks with
    | .error s => .err (.couldNotParseCIDR s)
    | .ok trusted =>
      match fw.rules.pathToNetblocks with
      | none => .nilMapPanic
      | some t =>
        .ok { fw with rules := { fw.rules with pathToNetblocks := some (t ++ [(path, trusted)]) } }

/-- The range loop inside IPIsTrusted. -/
def containsAny : List IPNet → IP → Bool
  | [], _ => false
  | n :: rest, ip => if n.contains ip then true else containsAny rest ip

/-- IPIsTrusted: nil source never matches; otherwise scan the netblocks
in order and succeed on the first one containing the source. -/
def IPIsTrusted (trusted : List IPNet) (src : Option IP) : Bool :=
  match src with
  | none => false
  | some ip => containsAny trusted ip

/-- The two request fields Wrap reads: r.RemoteAddr and r.URL.Path. -/
structure Request where
  remoteAddr : String
  urlPath : String
deriving DecidableEq, Repr

/-- One denial log line, "[FIREWALL] blocked request from <src> for
<path>".  The source is kept as a value; Go renders nil as the "<nil>"
placeholder via net.IP.String. -/
structure LogRecord where
  src : Option IP
  path : String
deriving DecidableEq, Repr

/-- What the wrapped handler does with the request: run the inner
handler on the unchanged request, or short-circuit with a status code
and body (http.Error). -/
inductive Outcome where
  | handled (r : Request)
  | rejected (status : Nat) (body : String)
deriving DecidableEq, Repr

structure WrapResult where
  logs : List LogRecord
  outcome : Outcome
deriving DecidableEq, Repr

/-- http.StatusText, restricted to the one status code this program
uses (Go returns the empty string for codes missing from its table). -/
def statusText (code : Nat) : String :=
  if code = 403 then "Forbidden" else ""

/-- net.ParseIP(strings.Split(r.RemoteAddr, ":")[0]). -/
def extractSrcIP (remoteAddr : String) : Option IP :=
  parseIP ((splitChar ':' remoteAddr.data).headD [])

/-- The authorization expression inside Wrap:
(hasRule && IPIsTrusted(rule, srcIP)) || FailOpen. -/
def Firewall.authorize (fw : Firewall) (path : String) (srcIP : Option IP) : Bool :=
  (match fw.rules.lookup path with
   | some rule => IPIsTrusted rule srcIP
   | none => false) || fw.rules.failOpen

/-- Wrap, per request: extract the source, decide, and either log (the
log.Println call is unconditional in the source) and reject with 403, or
invoke the inner handler on the unchanged request. -/
def Firewall.wrap (fw : Firewall) (r : Request) : WrapResult :=
  let srcIP := extractSrcIP r.remoteAddr
  if !(fw.authorize r.urlPath srcIP) then
    { logs := [{ src := srcIP, path := r.urlPath }],
      outcome := .rejected 403 (statusText 403) }
  else
    { logs := [], outcome := .handled r }

/-! ### Concrete configurations used as test vectors -/

/-- An empty but non-nil rule map, fail-closed, logging off. -/
def fwBase : Firewall := NewFirewall (some []) false false

/-- fwBase after registering /hello with trusted netblock 10.0.0.0/8. -/
def fwHello : Firewall :=
  NewFirewall (some [("/hello", [{ isV4 := true, base := 167772160, ones := 8 }])]) false false

/-- Like fwHello but with failOpen set. -/
def fwFailOpenDemo : Firewall :=
  NewFirewall (some [("/hello", [{ isV4 := true, base := 167772160, ones := 8 }])]) true false

/-- A firewall whose /empty path is configured with zero netblocks, failOpen set. -/
def fwEmptyEntryDemo : Firewall := NewFirewall (some [("/empty", [])]) true false

/-! ### Helper lemmas -/

theorem lookupTable_append_self (t : RuleTable) (p : String) (ns : List IPNet)
    (h : lookupTable t p = none) :
    lookupTable (t ++ [(p, ns)]) p = some ns := by
  induction t with
  | nil => simp [lookupTable]
  | cons e rest ih =>
    obtain ⟨q, ms⟩ := e
    by_cases hq : q = p
    · simp [lookupTable, hq] at h
    · simp only [List.cons_append, lookupTable, if_neg hq] at h ⊢
      exact ih h

theorem lookupTable_append_other (t : RuleTable) (p q : String) (ns : List IPNet)
    (h : q ≠ p) :
    lookupTable (t ++ [(p, ns)]) q = lookupTable t q := by
  induction t with
  | nil =>
    have hpq : ¬ p = q := fun hpq => h (Eq.symm hpq)
    simp [lookupTable, hpq]
  | cons e rest ih =>
    obtain ⟨p2, ms⟩ := e
    by_cases hp2 : p2 = q
    · simp [lookupTable, hp2]
    · simp only [List.cons_append, lookupTable, if_neg hp2]
      exact ih

theorem parseCIDRList_all_ok (l : List String)
    (h : ∀ s ∈ l, (parseCIDR s).isSome) :
    ∃ ts, parseCIDRList l = .ok ts := by
  induction l with
  | nil => exact ⟨[], rfl⟩
  | cons s rest ih =>
    obtain ⟨n, hn⟩ := Option.isSome_iff_exists.mp (h s (by simp))
    obtain ⟨ts, hts⟩ := ih (fun x hx => h x (by simp [hx]))
    exact ⟨n :: ts, by simp [parseCIDRList, hn, hts]⟩

theorem parseCIDRList_first_error (good : List String) (bad : String) (rest : List String)
    (h1 : ∀ g ∈ good, (parseCIDR g).isSome)
    (h2 : parseCIDR bad = none) :
    parseCIDRList (good ++ bad :: rest) = .error bad := by
  induction good with
  | nil => simp [parseCIDRList, h2]
  | cons g gs ih =>
    obtain ⟨n, hn⟩ := Option.isSome_iff_exists.mp (h1 g (by simp))
    have hrec := ih (fun x hx => h1 x (by simp [hx]))
    simp [parseCIDRList, hn, hrec]

theorem containsAny_iff (t : List IPNet) (ip : IP) :
    containsAny t ip = true ↔ ∃ n ∈ t, n.contains ip = true := by
  induction t with
  | nil => simp [containsAny]
  | cons hd tl ih =>
    cases h : hd.contains ip <;> simp [containsAny, h, ih]

/-! ### Claim theorems -/

/-- Claim C5: for every path with no configured entry in the rule table and every
source address, the authorization decision equals the failOpen flag. -/
theorem c5_unconfigured_decision_is_failOpen (fw : Firewall) (path : String) (src : Option IP)
    (h : fw.rules.lookup path = none) :
    fw.authorize path src = fw.rules.failOpen := by
  simp [Firewall.authorize, h]

theorem c5_witness :
    New.rules.lookup "/other" = none ∧
    New.authorize "/other" (some (IP.v4 5)) = New.rules.failOpen :=
  ⟨rfl, c5_unconfigured_decision_is_failOpen New "/other" (some (IP.v4 5)) rfl⟩

/-- Claim C8: IPIsTrusted is false on a nil source whatever the trusted list, and
on a resolved source it is true exactly when some netblock of the list
(scanned in order) contains the address — in particular false for the empty
list. -/
theorem c8_ipIsTrusted_characterization (trusted : List IPNet) (ip : IP) :
    IPIsTrusted trusted none = false ∧
    (IPIsTrusted trusted (some ip) = true ↔ ∃ n ∈ trusted, n.contains ip = true) :=
  ⟨rfl, by simpa [IPIsTrusted] using containsAny_iff trusted ip⟩

/-- Claim C9: a denied request produces the fixed rejection — status 403 with the
status text "Forbidden" as body, independent of the rules — and the inner
handler is not run; an authorized request runs the inner handler on the
unchanged request. -/
theorem c9_wrap_decision_shape (fw : Firewall) (r : Request) :
    (fw.wrap r).outcome =
      (if fw.authorize r.urlPath (extractSrcIP r.remoteAddr) then Outcome.handled r
       else Outcome.rejected 403 "Forbidden") := by
  cases h : fw.authorize r.urlPath (extractSrcIP r.remoteAddr) <;>
    simp [Firewall.wrap, h, statusText]

/-- Claim C2 fails on the code: a firewall whose log flag is false still emits a
log record when it denies a request — the log.Println call in Wrap is
unconditional and the Log field is never read — contradicting "when the flag
is false a denial produces no log record". -/
theorem c2_code_bug_log_flag_ignored :
    fwBase.log = false ∧
    (fwBase.wrap { remoteAddr := "", urlPath := "/x" }).logs =
      [{ src := none, path := "/x" }] := by
  exact ⟨rfl, rfl⟩

/-- What the code actually does: every denial emits exactly one log record
carrying the extracted source address (none standing for the placeholder) and
the path, regardless of the log flag, and an authorized request emits none. -/
theorem wrap_denial_always_logs (fw : Firewall) (r : Request) :
    (fw.wrap r).logs =
      (if fw.authorize r.urlPath (extractSrcIP r.remoteAddr) then ([] : List LogRecord)
       else [{ src := extractSrcIP r.remoteAddr, path := r.urlPath }]) := by
  cases h : fw.authorize r.urlPath (extractSrcIP r.remoteAddr) <;> simp [Firewall.wrap, h]

/-- Claim C6: adding a rule for an already-configured path fails with the
path-already-configured error, the path keeps exactly the netblocks parsed in
the first successful registration, other entries are untouched and the
failOpen flag is unchanged. -/
theorem c6_double_registration_rejected (fw fw1 : Firewall) (path : String)
    (nets1 nets2 : List String)
    (h : fw.addPathRule path nets1 = .ok fw1) :
    fw1.addPathRule path nets2 = .err .pathHasRule ∧
    (∃ ts, parseCIDRList nets1 = .ok ts ∧ fw1.rules.lookup path = some ts) ∧
    (∀ q, q ≠ path → fw1.rules.lookup q = fw.rules.lookup q) ∧
    fw1.rules.failOpen = fw.rules.failOpen := by
  cases hl : fw.rules.lookup path with
  | some v => simp [Firewall.addPathRule, hl] at h
  | none =>
    cases hp : parseCIDRList nets1 with
    | error s => simp [Firewall.addPathRule, hl, hp] at h
    | ok ts =>
      cases hm : fw.rules.pathToNetblocks with
      | none => simp [Firewall.addPathRule, hl, hp, hm] at h
      | some t =>
        simp only [Firewall.addPathRule, hl, hp, hm] at h
        have ht : lookupTable t path = none := by
          simpa [Rules.lookup, hm] using hl
        cases h
        refine ⟨?_, ⟨ts, rfl, ?_⟩, ?_, rfl⟩
        · simp [Firewall.addPathRule, Rules.lookup,
            lookupTable_append_self t path ts ht]
        · simp [Rules.lookup, lookupTable_append_self t path ts ht]
        · intro q hq
          simp [Rules.lookup, hm, lookupTable_append_other t path q ts hq]

theorem c6_witness :
    fwHello.addPathRule "/hello" ["192.168.0.0/16"] = .err .pathHasRule :=
  (c6_double_registration_rejected fwBase fwHello "/hello"
    ["10.0.0.0/8"] ["192.168.0.0/16"] (by decide)).1

/-- Claim C7: a malformed CIDR string anywhere in the list makes AddPathRule fail
fast at the first unparseable entry, returning the parse error naming that
entry; no success value is produced, so the table is left unmodified and the
path stays unconfigured. -/
theorem c7_parse_failure_is_atomic (fw : Firewall) (path bad : String)
    (good rest : List String)
    (h0 : fw.rules.lookup path = none)
    (h1 : ∀ g ∈ good, (parseCIDR g).isSome)
    (h2 : parseCIDR bad = none) :
    fw.addPathRule path (good ++ bad :: rest) = .err (.couldNotParseCIDR bad) := by
  have hfail := parseCIDRList_first_error good bad rest h1 h2
  simp [Firewall.addPathRule, h0, hfail]

theorem c7_witness :
    fwBase.addPathRule "/p" ["10.0.0.0/8", "bogus", "192.168.0.0/16"] =
      .err (.couldNotParseCIDR "bogus") :=
  c7_parse_failure_is_atomic fwBase "/p" "bogus" ["10.0.0.0/8"] ["192.168.0.0/16"]
    (by decide) (by decide) (by decide)

/-- Claim C3: on the firewall from the no-argument constructor New the rule map is
nil, so AddPathRule with a fresh path and well-formed CIDRs reaches the store
into the nil map and faults; and in general the success branch is reachable
only when the rule map is non-nil. -/
theorem c3_new_firewall_add_rule_panics (path : String) (networks : List String)
    (h : ∀ n ∈ networks, (parseCIDR n).isSome) :
    New.addPathRule path networks = .nilMapPanic ∧
    ∀ (fw fw2 : Firewall) (p : String) (ns : List String),
      fw.addPathRule p ns = .ok fw2 → fw.rules.pathToNetblocks.isSome := by
  constructor
  · obtain ⟨ts, hts⟩ := parseCIDRList_all_ok networks h
    simp [Firewall.addPathRule, Rules.lookup, New, hts]
  · intro fw fw2 p ns hok
    cases hl : fw.rules.lookup p with
    | some v => simp [Firewall.addPathRule, hl] at hok
    | none =>
      cases hp : parseCIDRList ns with
      | error s => simp [Firewall.addPathRule, hl, hp] at hok
      | ok ts =>
        cases hm : fw.rules.pathToNetblocks with
        | none => simp [Firewall.addPathRule, hl, hp, hm] at hok
        | some t => simp [hm]

theorem c3_witness :
    New.addPathRule "/hello" ["10.0.0.0/8"] = .nilMapPanic :=
  (c3_new_firewall_add_rule_panics "/hello" ["10.0.0.0/8"] (by decide)).1

/-- Claim C1 fails on the code: with failOpen true, a request from 203.0.113.5 to
the configured path /hello — whose only trusted netblock is 10.0.0.0/8, which
does not contain that address — is authorized and reaches the inner handler,
because Wrap computes (hasRule && IPIsTrusted(...)) || FailOpen.  The claim
(and the constructor's own documentation of failOpen as only applying to
paths with no configured netblocks) requires this request to be denied. -/
theorem c1_code_bug_failOpen_overrides_configured_path :
    (NewFirewall (some []) true false).addPathRule "/hello" ["10.0.0.0/8"] =
      .ok fwFailOpenDemo ∧
    fwFailOpenDemo.rules.lookup "/hello" =
      some [{ isV4 := true, base := 167772160, ones := 8 }] ∧
    IPIsTrusted [{ isV4 := true, base := 167772160, ones := 8 }]
      (extractSrcIP "203.0.113.5:443") = false ∧
    fwFailOpenDemo.authorize "/hello" (extractSrcIP "203.0.113.5:443") = true ∧
    (fwFailOpenDemo.wrap { remoteAddr := "203.0.113.5:443", urlPath := "/hello" }).outcome =
      .handled { remoteAddr := "203.0.113.5:443", urlPath := "/hello" } := by
  decide

theorem splitChar_ne_nil (sep : Char) (cs : List Char) : splitChar sep cs ≠ [] := by
  cases cs with
  | nil => simp [splitChar]
  | cons c rest =>
    by_cases h : c = sep
    · simp [splitChar, h]
    · simp only [splitChar, if_neg h]
      cases splitChar sep rest <;> simp

theorem splitChar_headD (sep : Char) (cs : List Char) :
    (splitChar sep cs).headD [] = cs.takeWhile (fun c => !(c == sep)) := by
  induction cs with
  | nil => rfl
  | cons c rest ih =>
    by_cases h : c = sep
    · subst h
      simp [splitChar, List.takeWhile_cons]
    · have hb : (c == sep) = false := by simp [h]
      rcases hr : splitChar sep rest with _ | ⟨g, gs⟩
      · exact absurd hr (splitChar_ne_nil sep rest)
      · rw [hr] at ih
        simp only [List.headD_cons] at ih
        simp only [splitChar, if_neg h, hr, List.takeWhile_cons, hb] at ih ⊢
        simp [ih]

theorem takeWhile_append_stop (p : Char → Bool) (xs : List Char) (y : Char) (ys : List Char)
    (h : p y = false) :
    (xs ++ y :: ys).takeWhile p = xs.takeWhile p := by
  induction xs with
  | nil => simp [List.takeWhile_cons, h]
  | cons x xs ih =>
    cases hx : p x <;> simp [List.takeWhile_cons, hx, ih]

theorem takeWhile_stronger (p q : Char → Bool) (s : List Char)
    (hpq : ∀ c, p c = true → q c = true)
    (hd : ∀ c cs2, s.dropWhile p = c :: cs2 → q c = false) :
    s.takeWhile q = s.takeWhile p := by
  induction s with
  | nil => rfl
  | cons c s ih =>
    cases hc : p c with
    | true =>
      have hqc := hpq c hc
      have hd2 : ∀ c2 cs2, s.dropWhile p = c2 :: cs2 → q c2 = false := by
        intro c2 cs2 hh
        exact hd c2 cs2 (by simp [List.dropWhile_cons, hc, hh])
      simp [List.takeWhile_cons, hc, hqc, ih hd2]
    | false =>
      have hqc : q c = false := hd c s (by simp [List.dropWhile_cons, hc])
      simp [List.takeWhile_cons, hc, hqc]

theorem all_takeWhile (p : Char → Bool) (s : List Char) :
    (s.takeWhile p).all p = true := by
  induction s with
  | nil => rfl
  | cons c s ih =>
    cases hc : p c <;> simp [List.takeWhile_cons, hc, ih]

theorem xtoiAux_rest (cs : List Char) :
    ∀ a k n c rest, xtoiAux cs a k = some (n, c, rest) → rest = cs.dropWhile isHexDigit := by
  induction cs with
  | nil =>
    intro a k n c rest h
    simp only [xtoiAux, Option.some.injEq, Prod.mk.injEq] at h
    obtain ⟨-, -, h3⟩ := h
    subst h3
    rfl
  | cons x xs ih =>
    intro a k n c rest h
    cases hx : isHexDigit x with
    | true =>
      simp only [xtoiAux, hx, if_true] at h
      split at h
      · cases h
      · exact (ih _ _ n c rest h).trans (by simp [List.dropWhile_cons, hx])
    | false =>
      simp [xtoiAux, hx] at h
      obtain ⟨-, -, h3⟩ := h
      rw [← h3]
      simp [List.dropWhile_cons, hx]

/-- Claim C4 fails on the code: a path configured with an empty trusted list does
not deny everyone — with failOpen true the decision for it is true for any
address, by the same (hasRule && trusted) || FailOpen expression. -/
theorem c4_code_bug_empty_entry_not_deny_all :
    fwEmptyEntryDemo.rules.lookup "/empty" = some [] ∧
    fwEmptyEntryDemo.authorize "/empty" (some (IP.v4 167838211)) = true ∧
    (fwEmptyEntryDemo.wrap { remoteAddr := "10.1.2.3:443", urlPath := "/empty" }).outcome =
      .handled { remoteAddr := "10.1.2.3:443", urlPath := "/empty" } := by
  decide

theorem isHexDigit_ne_colon (c : Char) (h : isHexDigit c = true) : (!(c == ':')) = true := by
  have h2 : c ≠ ':' := by rintro rfl; exact absurd h (by decide)
  simp [h2]

theorem isHexDigit_not_dot_colon (c : Char) (h : isHexDigit c = true) :
    (c == '.' || c == ':') = false := by
  have h1 : c ≠ '.' := by rintro rfl; exact absurd h (by decide)
  have h2 : c ≠ ':' := by rintro rfl; exact absurd h (by decide)
  simp [h1, h2]

theorem parseIP_none_of_no_dot_colon (cs : List Char)
    (h : ∀ c ∈ cs, (c == '.' || c == ':') = false) :
    parseIP cs = none := by
  have hf : cs.find? (fun c => c == '.' || c == ':') = none :=
    List.find?_eq_none.mpr (fun x hx => by simp [h x hx])
  simp [parseIP, hf]

theorem parseIPv4_cons_not_digit (c : Char) (cs : List Char) (h : c.isDigit = false) :
    parseIPv4 (c :: cs) = none := by
  by_cases hc : c = '.'
  · subst hc
    simp [parseIPv4, splitChar, parseV4Field, List.mapM, List.mapM.loop]
  · rcases hr : splitChar '.' cs with _ | ⟨g, gs⟩
    · exact absurd hr (splitChar_ne_nil '.' cs)
    · have hfield : parseV4Field (c :: g) = none := by
        simp [parseV4Field, h]
      simp [parseIPv4, splitChar, hc, hr, List.mapM, List.mapM.loop, hfield]

theorem parseIP_bracket (cs : List Char) (h : ∀ c ∈ cs, (c == ':') = false) :
    parseIP ('[' :: cs) = none := by
  rcases hf : ('[' :: cs).find? (fun c => c == '.' || c == ':') with _ | c
  · simp [parseIP, hf]
  · have hmem := List.mem_of_find?_eq_some hf
    have hpred := List.find?_some hf
    have hcol : (c == ':') = false := by
      rcases List.mem_cons.mp hmem with h1 | h1
      · subst h1; decide
      · exact h c h1
    have hdot : c = '.' := by
      rw [Bool.or_eq_true] at hpred
      rcases hpred with h2 | h2
      · exact eq_of_beq h2
      · simp [h2] at hcol
    subst hdot
    simp [parseIP, hf, parseIPv4_cons_not_digit '[' cs (by decide)]

/-- If the first iteration of the IPv6 loop (no ellipsis seen, no groups yet)
can succeed at all, the maximal hex run at the front of the input is followed
by a colon. -/
theorem parseIPv6Loop_start (fuel : Nat) (s : List Char)
    (h : (parseIPv6Loop (fuel + 1) s none []).isSome = true) :
    ∃ r2, s.dropWhile isHexDigit = ':' :: r2 := by
  rcases hx : xtoi s with _ | ⟨n, cnt, rest⟩
  · simp [parseIPv6Loop, hx] at h
  · have hdw := xtoiAux_rest s 0 0 n cnt rest hx
    rcases rest with _ | ⟨r1, rest2⟩
    · simp [parseIPv6Loop, hx, finishIPv6] at h
    · by_cases hr1 : r1 = '.'
      · simp [parseIPv6Loop, hx, hr1] at h
      · by_cases hr1c : r1 = ':'
        · exact ⟨rest2, by rw [← hdw, hr1c]⟩
        · simp [parseIPv6Loop, hx, hr1, hr1c] at h

/-- A successfully parsed IPv6 literal consists, up to its first colon, of hex
digits only (possibly none, when it starts with the double colon). -/
theorem parseIPv6_firstSeg_hex (cs : List Char)
    (h : (parseIPv6 cs).isSome = true) :
    ((cs.takeWhile (fun c => !(c == ':'))).all isHexDigit) = true := by
  rcases cs with _ | ⟨c1, cs1⟩
  · rfl
  · by_cases hc1 : c1 = ':'
    · subst hc1
      simp [List.takeWhile_cons]
    · have hloop : (parseIPv6Loop 9 (c1 :: cs1) none []).isSome = true := by
        rcases cs1 with _ | ⟨c2, cs2⟩
        · simpa [parseIPv6] using h
        · have hno : ¬ (c1 = ':' ∧ c2 = ':') := fun hh => hc1 hh.1
          simpa [parseIPv6, hno] using h
      obtain ⟨r2, hdw⟩ := parseIPv6Loop_start 8 (c1 :: cs1) hloop
      have heq : (c1 :: cs1).takeWhile (fun c => !(c == ':'))
          = (c1 :: cs1).takeWhile isHexDigit := by
        apply takeWhile_stronger
        · exact fun c hc => isHexDigit_ne_colon c hc
        · intro c cs2 hcc
          rw [hdw] at hcc
          injection hcc with h1 h2
          rw [← h1]
          rfl
      rw [heq]
      exact all_takeWhile isHexDigit (c1 :: cs1)

/-- Claim C10: source extraction splits the raw peer address at its first colon,
so for an IPv6-form peer address — "[host]:port" with any bracketed host, or
"host:port" with an unbracketed IPv6-literal host — the extracted segment does
not parse as an address, the source is nil, it matches no trusted netblock,
and the request is denied exactly when failOpen is false. -/
theorem c10_ipv6_remote_addr_unresolvable (fw : Firewall) (r : Request)
    (host port : String)
    (h : r.remoteAddr = "[" ++ host ++ "]:" ++ port ∨
         (r.remoteAddr = host ++ ":" ++ port ∧ (parseIPv6 host.data).isSome = true)) :
    extractSrcIP r.remoteAddr = none ∧
    (fw.wrap r).outcome =
      (if fw.rules.failOpen then Outcome.handled r else Outcome.rejected 403 "Forbidden") := by
  have hnone : extractSrcIP r.remoteAddr = none := by
    rcases h with h | ⟨h, hv6⟩
    · rw [h, extractSrcIP, splitChar_headD]
      have hdata : ("[" ++ host ++ "]:" ++ port).data
          = '[' :: (host.data ++ (']' :: ':' :: port.data)) := by
        simp [String.data_append]
      rw [hdata, List.takeWhile_cons, if_pos (show (!('[' == ':')) = true from rfl)]
      apply parseIP_bracket
      intro c hcmem
      have := List.mem_takeWhile_imp hcmem
      simpa using this
    · rw [h, extractSrcIP, splitChar_headD]
      have hdata : (host ++ ":" ++ port).data = host.data ++ ':' :: port.data := by
        simp [String.data_append]
      rw [hdata, takeWhile_append_stop _ _ _ _ (by rfl)]
      have hall := parseIPv6_firstSeg_hex host.data hv6
      rw [List.all_eq_true] at hall
      apply parseIP_none_of_no_dot_colon
      intro c hcmem
      exact isHexDigit_not_dot_colon c (hall c hcmem)
  refine ⟨hnone, ?_⟩
  have hauth : fw.authorize r.urlPath (extractSrcIP r.remoteAddr) = fw.rules.failOpen := by
    rw [hnone]
    cases hl : fw.rules.lookup r.urlPath <;> simp [Firewall.authorize, hl, IPIsTrusted]
  cases hfo : fw.rules.failOpen <;>
    simp [Firewall.wrap, hauth, hfo, statusText]

theorem c10_witness :
    extractSrcIP "[::1]:8080" = none ∧
    (New.wrap { remoteAddr := "[::1]:8080", urlPath := "/x" }).outcome =
      (if New.rules.failOpen then
        Outcome.handled { remoteAddr := "[::1]:8080", urlPath := "/x" }
       else Outcome.rejected 403 "Forbidden") :=
  c10_ipv6_remote_addr_unresolvable New { remoteAddr := "[::1]:8080", urlPath := "/x" }
    "::1" "8080" (Or.inl rfl)

end GoFirewall
